/-
Verification of the rainsar-hub event-to-imagery matching pipeline.

Shallow embedding of the relevant source functions:
  * backend/app/services/s1_cdse_client.py
      (_get_token, _stac_search, find_before_scene_unbounded,
       _normalize_product_name, download_product)
  * backend/scripts/build_gsmap_events.py      (event segmentation loop)
  * backend/scripts/download_s1_events_by_grid.py (event aggregation loop)
  * backend/scripts/search_s1_nationwide.py    (process_grid_batch, _bulk_save)
  * backend/scripts/build_s1_pairs_from_events_cdse.py
      (safe_find_before_scene, duplicate check, pair construction)

Times are rationals measured in hours (UTC); a day is 24 hours.
Network interaction is abstracted as explicit oracle parameters.
-/

import Mathlib

namespace RainsarHub

/-! ## Scene record (`S1Scene` dataclass) -/

structure S1Scene where
  stac_id : String
  product_identifier : Option String
  acquisition_time : ℚ
  orbit_direction : Option String
  relative_orbit : Option Int
  platform : Option String
deriving DecidableEq, Repr

/-! ## `find_before_scene_unbounded` (s1_cdse_client.py, lines 243-282)

The catalog query for one lookback tier is abstracted as an oracle
`search : ℕ → List S1Scene` giving the scenes returned when the window
`[ref - days_back, ref]` is searched with the supplied constraints. -/

def lookback_steps : List ℕ := [30, 90, 365, 365 * 5, 365 * 10]

/-- Python `max(candidates, key=lambda s: s.acquisition_time)`:
first maximal element wins on ties. -/
def maxByAcq (s0 : S1Scene) (rest : List S1Scene) : S1Scene :=
  rest.foldl (fun best s =>
    if best.acquisition_time < s.acquisition_time then s else best) s0

/-- Candidates of one tier: scenes strictly before the reference time. -/
def beforeCandidates (search : ℕ → List S1Scene) (ref : ℚ) (days_back : ℕ) :
    List S1Scene :=
  (search days_back).filter (fun s => s.acquisition_time < ref)

def tieredLookup (search : ℕ → List S1Scene) (ref : ℚ) :
    List ℕ → Option S1Scene
  | [] => none
  | d :: rest =>
    match beforeCandidates search ref d with
    | [] => tieredLookup search ref rest
    | c :: cs => some (maxByAcq c cs)

def find_before_scene_unbounded (search : ℕ → List S1Scene) (ref : ℚ) :
    Option S1Scene :=
  tieredLookup search ref lookback_steps

/-! Helper lemmas about `maxByAcq` and `tieredLookup`. -/

theorem maxByAcq_mem (s0 : S1Scene) (rest : List S1Scene) :
    maxByAcq s0 rest ∈ s0 :: rest := by
  induction rest generalizing s0 with
  | nil => simp [maxByAcq]
  | cons t ts ih =>
    simp only [maxByAcq, List.foldl_cons]
    by_cases h : s0.acquisition_time < t.acquisition_time
    · have hm := ih t
      simp only [maxByAcq, List.mem_cons] at hm
      simp only [h, if_true, List.mem_cons]
      rcases hm with h1 | h1
      · exact Or.inr (Or.inl h1)
      · exact Or.inr (Or.inr h1)
    · have hm := ih s0
      simp only [maxByAcq, List.mem_cons] at hm
      simp only [h, if_false, List.mem_cons]
      rcases hm with h1 | h1
      · exact Or.inl h1
      · exact Or.inr (Or.inr h1)

theorem maxByAcq_ge (s0 : S1Scene) (rest : List S1Scene) :
    ∀ t ∈ s0 :: rest, t.acquisition_time ≤ (maxByAcq s0 rest).acquisition_time := by
  induction rest generalizing s0 with
  | nil => intro t ht; simp only [List.mem_cons, List.not_mem_nil, or_false] at ht
           simp [maxByAcq, ht]
  | cons u us ih =>
    intro t ht
    simp only [List.mem_cons] at ht
    simp only [maxByAcq, List.foldl_cons]
    by_cases h : s0.acquisition_time < u.acquisition_time
    · simp only [h, if_true]
      rcases ht with h1 | h1 | h1
      · calc t.acquisition_time ≤ u.acquisition_time := h1 ▸ le_of_lt h
          _ ≤ _ := by
            have hg := ih u u (by simp)
            simpa [maxByAcq] using hg
      · have hg := ih u t (by simp [h1])
        simpa [maxByAcq] using hg
      · have hg := ih u t (by simp [h1])
        simpa [maxByAcq] using hg
    · simp only [h, if_false]
      rcases ht with h1 | h1 | h1
      · have hg := ih s0 t (by simp [h1])
        simpa [maxByAcq] using hg
      · have hle : t.acquisition_time ≤ s0.acquisition_time := h1 ▸ le_of_not_lt h
        calc t.acquisition_time ≤ s0.acquisition_time := hle
          _ ≤ _ := by
            have hg := ih s0 s0 (by simp)
            simpa [maxByAcq] using hg
      · have hg := ih s0 t (by simp [h1])
        simpa [maxByAcq] using hg

theorem tieredLookup_none_iff (search : ℕ → List S1Scene) (ref : ℚ)
    (ds : List ℕ) :
    tieredLookup search ref ds = none ↔
      ∀ d ∈ ds, beforeCandidates search ref d = [] := by
  induction ds with
  | nil => simp [tieredLookup]
  | cons d rest ih =>
    cases h : beforeCandidates search ref d with
    | nil => simp [tieredLookup, h, ih]
    | cons c cs => simp [tieredLookup, h]

theorem tieredLookup_some (search : ℕ → List S1Scene) (ref : ℚ)
    (ds : List ℕ) (sc : S1Scene) :
    tieredLookup search ref ds = some sc →
      ∃ pre d post, ds = pre ++ d :: post ∧
        (∀ e ∈ pre, beforeCandidates search ref e = []) ∧
        sc ∈ beforeCandidates search ref d ∧
        (∀ t ∈ beforeCandidates search ref d,
          t.acquisition_time ≤ sc.acquisition_time) := by
  induction ds with
  | nil => intro h; simp [tieredLookup] at h
  | cons d rest ih =>
    intro h
    cases hc : beforeCandidates search ref d with
    | nil =>
      rw [tieredLookup, hc] at h
      obtain ⟨pre, e, post, hds, hpre, hmem, hmax⟩ := ih h
      exact ⟨d :: pre, e, post, by simp [hds], by
        intro x hx
        rcases List.mem_cons.mp hx with hx | hx
        · exact hx ▸ hc
        · exact hpre x hx, hmem, hmax⟩
    | cons c cs =>
      rw [tieredLookup, hc] at h
      have hsc : sc = maxByAcq c cs := by
        simpa using h.symm
      refine ⟨[], d, rest, by simp, by simp, ?_, ?_⟩
      · rw [hc, hsc]; exact maxByAcq_mem c cs
      · intro t ht
        rw [hc] at ht
        rw [hsc]
        exact maxByAcq_ge c cs t ht

/-- C1: `find_before_scene_unbounded` tries lookback windows of exactly 30,
90, 365, 1825 and 3650 days in that order, stops at the first tier whose
search yields a scene with acquisition time strictly before the reference
time, returns the candidate with maximum acquisition time of that tier, and
returns none only when the 3650-day tier also has no such candidate. -/
theorem c1_find_before_tiered (search : ℕ → List S1Scene) (ref : ℚ) :
    lookback_steps = [30, 90, 365, 1825, 3650] ∧
    (∀ sc, find_before_scene_unbounded search ref = some sc →
      ∃ pre d post, lookback_steps = pre ++ d :: post ∧
        (∀ e ∈ pre, beforeCandidates search ref e = []) ∧
        sc ∈ beforeCandidates search ref d ∧
        sc.acquisition_time < ref ∧
        ∀ t ∈ beforeCandidates search ref d,
          t.acquisition_time ≤ sc.acquisition_time) ∧
    (find_before_scene_unbounded search ref = none ↔
      ∀ d ∈ lookback_steps, beforeCandidates search ref d = []) ∧
    (find_before_scene_unbounded search ref = none →
      beforeCandidates search ref 3650 = []) := by
  refine ⟨by decide, ?_, ?_, ?_⟩
  · intro sc hsc
    obtain ⟨pre, d, post, hds, hpre, hmem, hmax⟩ :=
      tieredLookup_some search ref lookback_steps sc hsc
    refine ⟨pre, d, post, hds, hpre, hmem, ?_, hmax⟩
    have := List.of_mem_filter hmem
    exact of_decide_eq_true this
  · exact tieredLookup_none_iff search ref lookback_steps
  · intro h
    exact (tieredLookup_none_iff search ref lookback_steps).mp h 3650
      (by decide)

def c1Scene : S1Scene := ⟨"scene-a", none, 5, none, none, none⟩

def c1Search : ℕ → List S1Scene := fun d => if 90 ≤ d then [c1Scene] else []

theorem c1_find_before_tiered_witness :
    ∃ pre d post, lookback_steps = pre ++ d :: post ∧
      (∀ e ∈ pre, beforeCandidates c1Search 10 e = []) ∧
      c1Scene ∈ beforeCandidates c1Search 10 d ∧
      c1Scene.acquisition_time < 10 ∧
      ∀ t ∈ beforeCandidates c1Search 10 d,
        t.acquisition_time ≤ c1Scene.acquisition_time :=
  (c1_find_before_tiered c1Search 10).2.1 c1Scene (by decide)

/-! ## Event segmentation (build_gsmap_events.py, lines 416-531)

One row of the streamed `gsmap_points` query:
`(grid_id, lat, lon, region, ts_utc, gauge_mm_h, source_file)`;
rows arriving at the loop have non-null grid_id and lie inside the Japan
polygon (pre-filters of the same loop), so the embedding takes the
surviving rows as input. -/

structure GsmapRow where
  grid_id : String
  lat : ℚ
  lon : ℚ
  region : Option String
  ts_utc : ℚ
  gauge_mm_h : ℚ
  source_file : String
deriving DecidableEq, Repr

/-- The open-event state of the loop (`cur_*` variables). -/
structure GsmapEvent where
  grid_id : String
  lat : ℚ
  lon : ℚ
  region : Option String
  start_ts : ℚ
  end_ts : ℚ
  hit_hours : ℕ
  sum_gauge : ℚ
  max_gauge : ℚ
  repr_source_file : String
deriving DecidableEq, Repr

/-- `1.01` hours: the hard-coded gap tolerance of build_gsmap_events.py. -/
def gsmapGapTol : ℚ := 101 / 100

/-- Seeding a new open event from a row (the `cur_* := ...` block). -/
def startEvent (r : GsmapRow) : GsmapEvent :=
  ⟨r.grid_id, r.lat, r.lon, r.region, r.ts_utc, r.ts_utc, 1,
    r.gauge_mm_h, r.gauge_mm_h, r.source_file⟩

/-- Extending the open event with a row (the イベント継続 branch). -/
def extendEvent (cur : GsmapEvent) (r : GsmapRow) : GsmapEvent :=
  { cur with
    end_ts := r.ts_utc
    hit_hours := cur.hit_hours + 1
    sum_gauge := cur.sum_gauge + r.gauge_mm_h
    max_gauge := if cur.max_gauge < r.gauge_mm_h then r.gauge_mm_h else cur.max_gauge
    repr_source_file :=
      if cur.max_gauge < r.gauge_mm_h then r.source_file else cur.repr_source_file }

/-- The row loop with an open event: extend while the row has the same
grid and arrives within the tolerance of the current end; otherwise flush
the open event and reseed.  The final open event is flushed at input
exhaustion. -/
def segLoop (cur : GsmapEvent) : List GsmapRow → List GsmapEvent
  | [] => [cur]
  | r :: rs =>
    if r.grid_id = cur.grid_id ∧ r.ts_utc - cur.end_ts ≤ gsmapGapTol then
      segLoop (extendEvent cur r) rs
    else
      cur :: segLoop (startEvent r) rs

def build_gsmap_events : List GsmapRow → List GsmapEvent
  | [] => []
  | r :: rs => segLoop (startEvent r) rs

/-! ### Specification-side chunking

`gapChunks` groups consecutive rows whose inter-reading gap is within the
tolerance, splitting exactly where the gap exceeds it; `chunkCore`
summarizes a chunk by direct aggregation (last timestamp, length, sum,
maximum).  The refinement theorem identifies the single-pass loop with
this chunk-wise description on single-grid input. -/

def gapOk (a b : GsmapRow) : Bool := b.ts_utc - a.ts_utc ≤ gsmapGapTol

def gapChunks : List GsmapRow → List (List GsmapRow)
  | [] => []
  | [r] => [[r]]
  | r :: r1 :: rs =>
    if gapOk r r1 then
      match gapChunks (r1 :: rs) with
      | [] => [[r]]
      | c :: cs => (r :: c) :: cs
    else
      [r] :: gapChunks (r1 :: rs)

/-- Claim-relevant projection of an event:
(grid_id, start_ts, end_ts, hit_count, sum, max). -/
structure EvCore where
  grid_id : String
  start_ts : ℚ
  end_ts : ℚ
  hit : ℕ
  sum : ℚ
  maxg : ℚ
deriving DecidableEq, Repr

def coreOf (e : GsmapEvent) : EvCore :=
  ⟨e.grid_id, e.start_ts, e.end_ts, e.hit_hours, e.sum_gauge, e.max_gauge⟩

def extendCore (c : EvCore) (r : GsmapRow) : EvCore :=
  ⟨c.grid_id, c.start_ts, r.ts_utc, c.hit + 1, c.sum + r.gauge_mm_h,
    max c.maxg r.gauge_mm_h⟩

def mergeCore (c : EvCore) (rs : List GsmapRow) : EvCore :=
  rs.foldl extendCore c

/-- Direct chunk summary: first row opens the event, and the fields are
the aggregate quantities of the whole chunk. -/
def chunkCore : List GsmapRow → EvCore
  | [] => ⟨"", 0, 0, 0, 0, 0⟩
  | r :: rs =>
    ⟨r.grid_id, r.ts_utc, ((rs.map GsmapRow.ts_utc).getLastD r.ts_utc),
      rs.length + 1, r.gauge_mm_h + (rs.map GsmapRow.gauge_mm_h).sum,
      (rs.map GsmapRow.gauge_mm_h).foldl max r.gauge_mm_h⟩

theorem coreOf_extendEvent (cur : GsmapEvent) (r : GsmapRow) :
    coreOf (extendEvent cur r) = extendCore (coreOf cur) r := by
  by_cases h : cur.max_gauge < r.gauge_mm_h
  · simp [coreOf, extendEvent, extendCore, h, max_eq_right (le_of_lt h)]
  · simp [coreOf, extendEvent, extendCore, h, max_eq_left (le_of_not_lt h)]

theorem coreOf_startEvent (r : GsmapRow) :
    coreOf (startEvent r) = ⟨r.grid_id, r.ts_utc, r.ts_utc, 1,
      r.gauge_mm_h, r.gauge_mm_h⟩ := rfl

theorem mergeCore_spec (rs : List GsmapRow) : ∀ c : EvCore,
    mergeCore c rs =
      ⟨c.grid_id, c.start_ts, (rs.map GsmapRow.ts_utc).getLastD c.end_ts,
        c.hit + rs.length, c.sum + (rs.map GsmapRow.gauge_mm_h).sum,
        (rs.map GsmapRow.gauge_mm_h).foldl max c.maxg⟩ := by
  induction rs with
  | nil => intro c; simp [mergeCore]
  | cons r rs ih =>
    intro c
    show mergeCore (extendCore c r) rs = _
    rw [ih (extendCore c r)]
    simp only [extendCore, List.map_cons, List.getLastD_cons, List.length_cons,
      List.sum_cons, List.foldl_cons, EvCore.mk.injEq]
    refine ⟨trivial, trivial, trivial, by omega, by ring, trivial⟩

theorem chunkCore_eq_merge (r : GsmapRow) (rs : List GsmapRow) :
    chunkCore (r :: rs) = mergeCore (coreOf (startEvent r)) rs := by
  rw [mergeCore_spec, coreOf_startEvent]
  simp [chunkCore, Nat.add_comm]

theorem gapOk_iff (a b : GsmapRow) :
    gapOk a b = true ↔ b.ts_utc - a.ts_utc ≤ gsmapGapTol := by
  simp [gapOk]

theorem gapChunks_shape : ∀ (rs : List GsmapRow) (r : GsmapRow),
    ∃ c cs, gapChunks (r :: rs) = (r :: c) :: cs := by
  intro rs
  induction rs with
  | nil => intro r; exact ⟨[], [], rfl⟩
  | cons r1 rs1 ih =>
    intro r
    by_cases h : gapOk r r1
    · obtain ⟨c, cs, hc⟩ := ih r1
      exact ⟨r1 :: c, cs, by simp [gapChunks, h, hc]⟩
    · exact ⟨[], gapChunks (r1 :: rs1), by simp [gapChunks, h]⟩

theorem gapChunks_flatten : ∀ rs : List GsmapRow, (gapChunks rs).flatten = rs := by
  intro rs
  induction rs with
  | nil => rfl
  | cons r rs ih =>
    cases rs with
    | nil => rfl
    | cons r1 rs1 =>
      by_cases h : gapOk r r1
      · obtain ⟨c, cs, hc⟩ := gapChunks_shape rs1 r1
        rw [hc] at ih
        simp only [gapChunks, h, if_true, hc]
        simp only [List.flatten_cons] at ih ⊢
        simp [← ih]
      · simp only [gapChunks, h, if_false, List.flatten_cons]
        simp [ih]

/-- Bridge form of the chunk-wise description, relative to an open event. -/
def specSeg (cur : EvCore) : List GsmapRow → List EvCore
  | [] => [cur]
  | r :: rs =>
    if r.ts_utc - cur.end_ts ≤ gsmapGapTol then
      match gapChunks (r :: rs) with
      | [] => [cur]
      | c :: cs => mergeCore cur c :: List.map chunkCore cs
    else cur :: List.map chunkCore (gapChunks (r :: rs))

theorem specSeg_cons_le (cur : EvCore) (r : GsmapRow) (rs : List GsmapRow)
    (h : r.ts_utc - cur.end_ts ≤ gsmapGapTol) :
    specSeg cur (r :: rs) =
      match gapChunks (r :: rs) with
      | [] => [cur]
      | c :: cs => mergeCore cur c :: List.map chunkCore cs := by
  rw [specSeg, if_pos h]

theorem specSeg_cons_gt (cur : EvCore) (r : GsmapRow) (rs : List GsmapRow)
    (h : ¬ r.ts_utc - cur.end_ts ≤ gsmapGapTol) :
    specSeg cur (r :: rs) = cur :: List.map chunkCore (gapChunks (r :: rs)) := by
  rw [specSeg, if_neg h]

theorem gapChunks_cons_ok (r r1 : GsmapRow) (rs1 : List GsmapRow)
    (h : gapOk r r1 = true) (c : List GsmapRow) (cs : List (List GsmapRow))
    (hc : gapChunks (r1 :: rs1) = (r1 :: c) :: cs) :
    gapChunks (r :: r1 :: rs1) = (r :: r1 :: c) :: cs := by
  simp [gapChunks, h, hc]

theorem gapChunks_cons_no (r r1 : GsmapRow) (rs1 : List GsmapRow)
    (h : ¬ gapOk r r1 = true) :
    gapChunks (r :: r1 :: rs1) = [r] :: gapChunks (r1 :: rs1) := by
  simp [gapChunks, h]

/-- Starting an event at `r` and running the bridge over the remaining rows
is the chunk-wise summary of `r :: rs`. -/
theorem specSeg_start (r : GsmapRow) (rs : List GsmapRow) :
    specSeg (coreOf (startEvent r)) rs =
      List.map chunkCore (gapChunks (r :: rs)) := by
  cases rs with
  | nil =>
    show [coreOf (startEvent r)] = List.map chunkCore [[r]]
    rw [List.map_cons, List.map_nil, chunkCore_eq_merge]
    rfl
  | cons r1 rs1 =>
    by_cases h1 : gapOk r r1
    · obtain ⟨c, cs, hc⟩ := gapChunks_shape rs1 r1
      have h1q : r1.ts_utc - (coreOf (startEvent r)).end_ts ≤ gsmapGapTol :=
        (gapOk_iff r r1).mp h1
      rw [specSeg_cons_le _ _ _ h1q, hc,
        gapChunks_cons_ok r r1 rs1 h1 c cs hc, List.map_cons, chunkCore_eq_merge]
    · have h1q : ¬ r1.ts_utc - (coreOf (startEvent r)).end_ts ≤ gsmapGapTol :=
        fun hle => h1 ((gapOk_iff r r1).mpr hle)
      rw [specSeg_cons_gt _ _ _ h1q, gapChunks_cons_no r r1 rs1 h1,
        List.map_cons, chunkCore_eq_merge]
      rfl

/-- Absorbing one in-tolerance row into the open event commutes with the
bridge description. -/
theorem specSeg_extend (cur : GsmapEvent) (r : GsmapRow) (rs : List GsmapRow)
    (hgap : r.ts_utc - cur.end_ts ≤ gsmapGapTol) :
    specSeg (coreOf (extendEvent cur r)) rs = specSeg (coreOf cur) (r :: rs) := by
  have hgapc : r.ts_utc - (coreOf cur).end_ts ≤ gsmapGapTol := hgap
  cases rs with
  | nil =>
    rw [specSeg_cons_le _ _ _ hgapc]
    show [coreOf (extendEvent cur r)] = [mergeCore (coreOf cur) [r]]
    rw [coreOf_extendEvent]
    rfl
  | cons r1 rs1 =>
    by_cases h1 : gapOk r r1
    · obtain ⟨c, cs, hc⟩ := gapChunks_shape rs1 r1
      have h1q : r1.ts_utc - (coreOf (extendEvent cur r)).end_ts ≤ gsmapGapTol :=
        (gapOk_iff r r1).mp h1
      rw [specSeg_cons_le _ _ _ h1q, hc, specSeg_cons_le _ _ _ hgapc,
        gapChunks_cons_ok r r1 rs1 h1 c cs hc]
      show mergeCore (coreOf (extendEvent cur r)) (r1 :: c) :: _ =
        mergeCore (coreOf cur) (r :: r1 :: c) :: _
      rw [coreOf_extendEvent]
      rfl
    · have h1q : ¬ r1.ts_utc - (coreOf (extendEvent cur r)).end_ts ≤ gsmapGapTol :=
        fun hle => h1 ((gapOk_iff r r1).mpr hle)
      rw [specSeg_cons_gt _ _ _ h1q, specSeg_cons_le _ _ _ hgapc,
        gapChunks_cons_no r r1 rs1 h1]
      show coreOf (extendEvent cur r) :: _ = mergeCore (coreOf cur) [r] :: _
      rw [coreOf_extendEvent]
      rfl

theorem segLoop_chunks : ∀ (rows : List GsmapRow) (cur : GsmapEvent),
    (∀ r ∈ rows, r.grid_id = cur.grid_id) →
    List.map coreOf (segLoop cur rows) = specSeg (coreOf cur) rows := by
  intro rows
  induction rows with
  | nil => intro cur _; rfl
  | cons r rs ih =>
    intro cur hgrid
    have hr : r.grid_id = cur.grid_id := hgrid r (by simp)
    have hrs : ∀ x ∈ rs, x.grid_id = cur.grid_id := fun x hx =>
      hgrid x (by simp [hx])
    by_cases hgap : r.ts_utc - cur.end_ts ≤ gsmapGapTol
    · rw [segLoop, if_pos ⟨hr, hgap⟩,
        ih (extendEvent cur r) (fun x hx => hrs x hx),
        specSeg_extend cur r rs hgap]
    · have hgapc : ¬ r.ts_utc - (coreOf cur).end_ts ≤ gsmapGapTol := hgap
      rw [segLoop, if_neg (fun hc => hgap hc.2), List.map_cons,
        ih (startEvent r) (fun x hx => (hrs x hx).trans hr.symm),
        specSeg_start r rs, specSeg_cons_gt _ _ _ hgapc]

/-- Chunk-wise correctness of the full segmentation on single-grid input. -/
theorem build_gsmap_events_chunks (rows : List GsmapRow)
    (hgrid : ∀ r ∈ rows, ∀ s ∈ rows, r.grid_id = s.grid_id) :
    List.map coreOf (build_gsmap_events rows) =
      List.map chunkCore (gapChunks rows) := by
  cases rows with
  | nil => rfl
  | cons r rs =>
    have hrs : ∀ x ∈ rs, x.grid_id = (startEvent r).grid_id := by
      intro x hx
      exact hgrid x (by simp [hx]) r (by simp)
    show List.map coreOf (segLoop (startEvent r) rs) = _
    rw [segLoop_chunks rs (startEvent r) hrs, specSeg_start r rs]

/-! ## Event aggregation of download_s1_events_by_grid.py (lines 88-104)

Points are pre-filtered to one grid and to `gauge_mm_h >= threshold`,
sorted ascending by timestamp; the gap tolerance is the hard-coded
`timedelta(hours=1.1)`. -/

structure DlPoint where
  ts_utc : ℚ
  gauge_mm_h : ℚ
deriving DecidableEq, Repr

structure DlEvent where
  start_ts : ℚ
  end_ts : ℚ
  max_rain : ℚ
  count : ℕ
deriving DecidableEq, Repr

def dlGapTol : ℚ := 11 / 10

def dlSeed (p : DlPoint) : DlEvent := ⟨p.ts_utc, p.ts_utc, p.gauge_mm_h, 1⟩

def dlExtend (cur : DlEvent) (p : DlPoint) : DlEvent :=
  { cur with
    end_ts := p.ts_utc
    max_rain := max cur.max_rain p.gauge_mm_h
    count := cur.count + 1 }

def dlLoop (cur : DlEvent) : List DlPoint → List DlEvent
  | [] => [cur]
  | p :: ps =>
    if p.ts_utc - cur.end_ts ≤ dlGapTol then dlLoop (dlExtend cur p) ps
    else cur :: dlLoop (dlSeed p) ps

def extract_rain_events : List DlPoint → List DlEvent
  | [] => []
  | p :: ps => dlLoop (dlSeed p) ps

/-- C2: on a non-empty, timestamp-sorted, single-grid input the
segmentation is the chunk-wise summary of the maximal runs obtained by
splitting exactly where the inter-reading gap exceeds the tolerance: the
chunks partition the input, and each emitted event carries the last
timestamp, the hit count, the intensity sum and the intensity maximum of
its chunk; in particular readings at `T, T+1h, T+2h, T+4h` with gap
tolerance 1.1h yield the two events `[T, T+2h]` (hit_count 3) and
`[T+4h, T+4h]` (hit_count 1). -/
theorem c2_segmentation (rows : List GsmapRow)
    (hne : rows ≠ [])
    (hsorted : List.Chain' (fun a b => a.ts_utc ≤ b.ts_utc) rows)
    (hgrid : ∀ r ∈ rows, ∀ s ∈ rows, r.grid_id = s.grid_id) :
    ((gapChunks rows).flatten = rows ∧
      List.map coreOf (build_gsmap_events rows) =
        List.map chunkCore (gapChunks rows)) ∧
    extract_rain_events [⟨0, 5⟩, ⟨1, 6⟩, ⟨2, 7⟩, ⟨4, 8⟩] =
      [⟨0, 2, 7, 3⟩, ⟨4, 4, 8, 1⟩] := by
  refine ⟨⟨gapChunks_flatten rows, build_gsmap_events_chunks rows hgrid⟩, ?_⟩
  norm_num [extract_rain_events, dlLoop, dlSeed, dlExtend, dlGapTol, max_def]

def c2Rows : List GsmapRow :=
  [⟨"G1", 35, 135, none, 0, 5, "f1"⟩, ⟨"G1", 35, 135, none, 1, 6, "f2"⟩]

theorem c2_segmentation_witness :
    ((gapChunks c2Rows).flatten = c2Rows ∧
      List.map coreOf (build_gsmap_events c2Rows) =
        List.map chunkCore (gapChunks c2Rows)) ∧
    extract_rain_events [⟨0, 5⟩, ⟨1, 6⟩, ⟨2, 7⟩, ⟨4, 8⟩] =
      [⟨0, 2, 7, 3⟩, ⟨4, 4, 8, 1⟩] :=
  c2_segmentation c2Rows (by decide)
    (by norm_num [c2Rows, List.chain'_cons]) (by decide)

/-! ## C6: grid boundaries in the build_gsmap_events segmentation -/

def c6Rows : List GsmapRow :=
  [⟨"G1", 35, 135, none, 0, 5, "f1"⟩, ⟨"G2", 35, 135, none, 1, 6, "f2"⟩]

/-- C6 counterexample: two readings from different grid cells one hour
apart (inside the 1.01h gap tolerance) are NOT merged: the loop flushes at
the cell boundary and emits two events, one per cell. -/
theorem c6_counterexample :
    (c6Rows.map GsmapRow.grid_id = ["G1", "G2"]) ∧
    ((1 : ℚ) - 0 ≤ gsmapGapTol) ∧
    (build_gsmap_events c6Rows).length = 2 ∧
    List.map GsmapEvent.grid_id (build_gsmap_events c6Rows) = ["G1", "G2"] := by
  exact ⟨by decide, by norm_num [gsmapGapTol], by decide, by decide⟩

/-- C6 amended: the build_gsmap_events loop checks the grid id of each
row against the open event; a row from a different grid always closes the
open event and seeds a new one, regardless of the time gap. -/
theorem c6_grid_boundary_flush (cur : GsmapEvent) (r : GsmapRow)
    (rs : List GsmapRow) (h : r.grid_id ≠ cur.grid_id) :
    segLoop cur (r :: rs) = cur :: segLoop (startEvent r) rs := by
  rw [segLoop, if_neg (fun hc => h hc.1)]

theorem c6_grid_boundary_flush_witness :
    segLoop (startEvent ⟨"G1", 35, 135, none, 0, 5, "f1"⟩)
        [⟨"G2", 35, 135, none, 1, 6, "f2"⟩] =
      startEvent ⟨"G1", 35, 135, none, 0, 5, "f1"⟩ ::
        segLoop (startEvent ⟨"G2", 35, 135, none, 1, 6, "f2"⟩) [] :=
  c6_grid_boundary_flush (startEvent ⟨"G1", 35, 135, none, 0, 5, "f1"⟩)
    ⟨"G2", 35, 135, none, 1, 6, "f2"⟩ [] (by decide)

/-! ## `_stac_search` (s1_cdse_client.py, lines 84-128)

One attempt of the GET is abstracted as an oracle `responses : ℕ →
HttpOutcome` indexed by the attempt number.  A successful response carries
the scenes its JSON parses to; the empty dict returned on error parses to
no scenes, so the loop result is the scene list together with the number of
HTTP requests actually issued. -/

inductive HttpOutcome where
  | success (scenes : List S1Scene)
  | httpError (status : ℕ) (retryAfter : Option ℚ)
  | otherError
deriving DecidableEq

def stacSearchLoop (responses : ℕ → HttpOutcome) : List ℕ → List S1Scene × ℕ
  | [] => ([], 0)
  | a :: rest =>
    match responses a with
    | .success scenes => (scenes, 1)
    | .httpError status _ =>
      if status = 429 then
        let r := stacSearchLoop responses rest
        (r.1, r.2 + 1)
      else ([], 1)
    | .otherError => ([], 1)

def stac_search (responses : ℕ → HttpOutcome) : List S1Scene × ℕ :=
  stacSearchLoop responses (List.range 10)

theorem stacSearchLoop_all_429 (responses : ℕ → HttpOutcome) :
    ∀ attempts : List ℕ,
      (∀ a ∈ attempts, ∃ ra, responses a = .httpError 429 ra) →
      stacSearchLoop responses attempts = ([], attempts.length) := by
  intro attempts
  induction attempts with
  | nil => intro _; rfl
  | cons a rest ih =>
    intro h
    obtain ⟨ra, hra⟩ := h a (by simp)
    simp only [stacSearchLoop, hra, List.length_cons]
    rw [ih (fun x hx => h x (by simp [hx]))]
    simp

/-- C4 counterexample: a catalog search hitting HTTP 500 on its first
attempt issues exactly one request and degrades to an empty result at
once, while the same search hitting HTTP 429 throughout issues all ten
requests; 5xx does not get the 429 retry treatment. -/
theorem c4_counterexample :
    stac_search (fun _ => .httpError 500 none) = ([], 1) ∧
    stac_search (fun _ => .httpError 429 none) = ([], 10) ∧
    (stac_search (fun _ => .httpError 500 none)).2 ≠
      (stac_search (fun _ => .httpError 429 none)).2 := by
  refine ⟨rfl, ?_, ?_⟩
  · exact stacSearchLoop_all_429 _ (List.range 10) (fun a _ => ⟨none, rfl⟩)
  · rw [show stac_search (fun _ => .httpError 429 none) = ([], 10) from
      stacSearchLoop_all_429 _ (List.range 10) (fun a _ => ⟨none, rfl⟩)]
    decide

/-- C4 amended: only HTTP 429 is retried with backoff; any other HTTP
error (in particular every 5xx) and any other exception make `_stac_search`
return the empty result immediately after a single request, and ten
consecutive 429 responses exhaust the retry bound with an empty result. -/
theorem c4_only_429_retried (responses : ℕ → HttpOutcome) :
    (∀ status ra, responses 0 = .httpError status ra → status ≠ 429 →
      stac_search responses = ([], 1)) ∧
    (responses 0 = .otherError → stac_search responses = ([], 1)) ∧
    ((∀ a < 10, ∃ ra, responses a = .httpError 429 ra) →
      stac_search responses = ([], 10)) := by
  refine ⟨?_, ?_, ?_⟩
  · intro status ra h0 hs
    show stacSearchLoop responses (List.range 10) = ([], 1)
    rw [List.range_succ_eq_map]
    simp only [stacSearchLoop, h0]
    rw [if_neg hs]
  · intro h0
    show stacSearchLoop responses (List.range 10) = ([], 1)
    rw [List.range_succ_eq_map]
    simp only [stacSearchLoop, h0]
  · intro h
    have := stacSearchLoop_all_429 responses (List.range 10)
      (fun a ha => h a (List.mem_range.mp ha))
    simpa using this

theorem c4_only_429_retried_witness :
    stac_search (fun _ => HttpOutcome.httpError 503 none) = ([], 1) :=
  (c4_only_429_retried (fun _ => HttpOutcome.httpError 503 none)).1
    503 none rfl (by decide)

/-! ## `_get_token` (s1_cdse_client.py, lines 48-73)

The cached token state and the token endpoint are explicit; the time axis
is the one the expiry arithmetic lives on (seconds).  The function returns
the token string and the updated state; there is no error channel. -/

structure TokenState where
  access_token : Option String
  token_expire_at : ℚ
deriving DecidableEq, Repr

inductive TokenEndpoint where
  | ok (access_token : String) (expires_in : ℚ)
  | rejected
deriving DecidableEq, Repr

/-- Python truthiness of the `Optional[str]` cached token. -/
def tokenTruthy : Option String → Bool
  | none => false
  | some t => t != ""

def get_token (client_id client_secret : String) (endpoint : TokenEndpoint)
    (now : ℚ) (st : TokenState) : String × TokenState :=
  if tokenTruthy st.access_token = true ∧ now < st.token_expire_at then
    (st.access_token.getD "", st)
  else if client_id = "" ∨ client_secret = "" then
    ("", st)
  else
    match endpoint with
    | .ok tok expires_in => (tok, ⟨some tok, now + (expires_in - 60)⟩)
    | .rejected => ("", st)

/-- C5 counterexample: with absent credentials, and likewise when the
token endpoint rejects the request, `_get_token` returns the empty token
string (a non-error value); it has no error channel at all. -/
theorem c5_counterexample :
    get_token "" "secret" (.ok "tok" 3600) 0 ⟨none, 0⟩ = ("", ⟨none, 0⟩) ∧
    get_token "id" "secret" .rejected 0 ⟨none, 0⟩ = ("", ⟨none, 0⟩) := by
  refine ⟨?_, ?_⟩ <;> simp [get_token, tokenTruthy]

/-- C5 amended: when the cached token is unusable, `_get_token` returns
the empty string — not an AuthError — both when either credential is empty
and when the token endpoint rejects the request; the cached state is left
unchanged. -/
theorem c5_get_token_returns_empty (client_id client_secret : String)
    (endpoint : TokenEndpoint) (now : ℚ) (st : TokenState)
    (hc : ¬ (tokenTruthy st.access_token = true ∧ now < st.token_expire_at)) :
    (client_id = "" ∨ client_secret = "" →
      get_token client_id client_secret endpoint now st = ("", st)) ∧
    (endpoint = .rejected →
      get_token client_id client_secret endpoint now st = ("", st)) := by
  constructor
  · intro hcred
    simp only [get_token]
    rw [if_neg hc, if_pos hcred]
  · intro hend
    simp only [get_token]
    rw [if_neg hc]
    by_cases hcred : client_id = "" ∨ client_secret = ""
    · rw [if_pos hcred]
    · rw [if_neg hcred, hend]

theorem c5_get_token_returns_empty_witness :
    get_token "" "secret" (.ok "tok" 3600) 0 ⟨none, 0⟩ = ("", ⟨none, 0⟩) :=
  (c5_get_token_returns_empty "" "secret" (.ok "tok" 3600) 0 ⟨none, 0⟩
    (by simp [tokenTruthy])).1 (Or.inl rfl)

/-! ## Persisted pair record (`models.S1Pair` columns used by the scripts) -/

structure S1Pair where
  grid_id : String
  lat : ℚ
  lon : ℚ
  event_start_ts_utc : ℚ
  event_end_ts_utc : ℚ
  threshold_mm_h : ℚ
  hit_hours : ℕ
  max_gauge_mm_h : ℚ
  after_scene_id : String
  after_relative_orbit : Option Int
  after_start_ts_utc : ℚ
  before_scene_id : Option String
  before_start_ts_utc : Option ℚ
  before_end_ts_utc : Option ℚ
  before_relative_orbit : Option Int
  delay_h : ℚ
  source : String
deriving DecidableEq, Repr

/-! ## `safe_find_before_scene` (build_s1_pairs_from_events_cdse.py,
lines 236-312) and the pair construction of `build_s1_pairs`
(lines 398-496)

The wrapper calls
`client.find_before_scene_unbounded(lat, lon, ref_time_utc=...,
mission_start_utc=datetime(2014, 1, 1, ...))`.  Python raises `TypeError`
for a keyword argument that is not among the callee's parameters, before
the body runs; the wrapper's first handler catches only `HTTPError`, so
the `TypeError` falls to the catch-all `except Exception` branch. -/

def find_before_scene_kw_params : List String :=
  ["lat", "lon", "ref_time_utc", "platform", "orbit_direction", "relative_orbit"]

def safe_find_before_call_kw : List String := ["ref_time_utc", "mission_start_utc"]

inductive PyExc where
  | httpError (status : Option ℕ)
  | typeError
  | otherExc
deriving DecidableEq, Repr

inductive PyResult (α : Type) where
  | ok (val : α)
  | exc (e : PyExc)
deriving DecidableEq, Repr

/-- The call expression inside the wrapper: an unexpected keyword argument
raises `TypeError`; otherwise the callee body would run and return its
value (abstracted as `impl`). -/
def callFindBeforeUnbounded (impl : Option S1Scene) : PyResult (Option S1Scene) :=
  if safe_find_before_call_kw.all (fun k => find_before_scene_kw_params.contains k) then
    .ok impl
  else .exc .typeError

def beforeRetryStatuses : List ℕ := [429, 500, 502, 503, 504]

/-- The attempt loop of `safe_find_before_scene`, also tracking the
`stac_before_errors` counter. -/
def safeFindBeforeLoop (impl : Option S1Scene) (errors : ℕ) :
    ℕ → Option S1Scene × ℕ
  | 0 => (none, errors + 1)
  | fuel + 1 =>
    match callFindBeforeUnbounded impl with
    | .ok v => (v, errors)
    | .exc (.httpError status) =>
      if (status.map (fun s => beforeRetryStatuses.contains s)).getD false then
        safeFindBeforeLoop impl errors fuel
      else (none, errors + 1)
    | .exc .typeError => (none, errors + 1)
    | .exc .otherExc => (none, errors + 1)

def safe_find_before_scene (impl : Option S1Scene) (errors : ℕ) :
    Option S1Scene × ℕ :=
  safeFindBeforeLoop impl errors 3

/-- Python `a or b` for an optional string falling back to another. -/
def strOr (a : Option String) (b : String) : String :=
  match a with
  | none => b
  | some s => if s = "" then b else s

/-- The `models.S1Pair(...)` construction of build_s1_pairs (lines
468-496), given the event data, the after scene and the before result. -/
def mkCdsePair (grid_id : String) (lat lon ev_start ev_end threshold : ℚ)
    (hit : ℕ) (maxg : ℚ) (after : S1Scene) (before : Option S1Scene) : S1Pair :=
  { grid_id := grid_id, lat := lat, lon := lon,
    event_start_ts_utc := ev_start, event_end_ts_utc := ev_end,
    threshold_mm_h := threshold, hit_hours := hit, max_gauge_mm_h := maxg,
    after_scene_id := strOr after.product_identifier after.stac_id,
    after_relative_orbit := after.relative_orbit,
    after_start_ts_utc := after.acquisition_time,
    before_scene_id := before.bind S1Scene.product_identifier,
    before_start_ts_utc := before.map S1Scene.acquisition_time,
    before_end_ts_utc := before.map S1Scene.acquisition_time,
    before_relative_orbit := before.bind S1Scene.relative_orbit,
    delay_h := after.acquisition_time - ev_end,
    source := "cdse" }

/-- C3: the batch pairing orchestrator's `safe_find_before_scene` always
returns None: the call passes the keyword `mission_start_utc`, which
`find_before_scene_unbounded` does not accept, the resulting TypeError is
caught by the catch-all handler which bumps the before-error counter, and
consequently every pair the orchestrator builds has all before-scene
fields null — whatever the catalog lookup would have returned. -/
theorem c3_before_scene_always_none (impl : Option S1Scene) (errors : ℕ)
    (grid_id : String) (lat lon ev_start ev_end threshold : ℚ)
    (hit : ℕ) (maxg : ℚ) (after : S1Scene) :
    "mission_start_utc" ∉ find_before_scene_kw_params ∧
    callFindBeforeUnbounded impl = .exc .typeError ∧
    safe_find_before_scene impl errors = (none, errors + 1) ∧
    (mkCdsePair grid_id lat lon ev_start ev_end threshold hit maxg after
        (safe_find_before_scene impl errors).1).before_scene_id = none ∧
    (mkCdsePair grid_id lat lon ev_start ev_end threshold hit maxg after
        (safe_find_before_scene impl errors).1).before_start_ts_utc = none ∧
    (mkCdsePair grid_id lat lon ev_start ev_end threshold hit maxg after
        (safe_find_before_scene impl errors).1).before_end_ts_utc = none ∧
    (mkCdsePair grid_id lat lon ev_start ev_end threshold hit maxg after
        (safe_find_before_scene impl errors).1).before_relative_orbit = none := by
  refine ⟨by decide, rfl, rfl, rfl, rfl, rfl, rfl⟩

def c3After : S1Scene := ⟨"after-scene", some "S1A_PROD", 100, some "ascending", some 10, some "sentinel-1a"⟩

theorem c3_before_scene_always_none_witness :
    "mission_start_utc" ∉ find_before_scene_kw_params ∧
    callFindBeforeUnbounded (some c3After) = .exc .typeError ∧
    safe_find_before_scene (some c3After) 0 = (none, 1) ∧
    (mkCdsePair "G1" 35 135 0 2 10 3 25 c3After
        (safe_find_before_scene (some c3After) 0).1).before_scene_id = none ∧
    (mkCdsePair "G1" 35 135 0 2 10 3 25 c3After
        (safe_find_before_scene (some c3After) 0).1).before_start_ts_utc = none ∧
    (mkCdsePair "G1" 35 135 0 2 10 3 25 c3After
        (safe_find_before_scene (some c3After) 0).1).before_end_ts_utc = none ∧
    (mkCdsePair "G1" 35 135 0 2 10 3 25 c3After
        (safe_find_before_scene (some c3After) 0).1).before_relative_orbit = none :=
  c3_before_scene_always_none (some c3After) 0 "G1" 35 135 0 2 10 3 25 c3After

/-! ## `process_grid_batch` (search_s1_nationwide.py, lines 138-170)

`search_event_pair` (the catalog lookup per event, returning a pair dict
or None) is abstracted as an oracle over the grid's events. -/

def process_grid_batch {ε : Type} (searchPair : ε → Option S1Pair)
    (events : List ε) (trigger_hours : ℚ) : List S1Pair :=
  let st := events.foldl
    (fun (st : List S1Pair × Bool) ev =>
      match searchPair ev with
      | none => st
      | some pair =>
        (st.1 ++ [pair], st.2 || decide (pair.delay_h ≤ trigger_hours)))
    ([], false)
  if st.2 then st.1 else []

theorem process_grid_batch_foldl {ε : Type} (searchPair : ε → Option S1Pair)
    (trigger : ℚ) :
    ∀ (events : List ε) (st : List S1Pair × Bool),
      events.foldl
        (fun (st : List S1Pair × Bool) ev =>
          match searchPair ev with
          | none => st
          | some pair =>
            (st.1 ++ [pair], st.2 || decide (pair.delay_h ≤ trigger))) st =
      (st.1 ++ events.filterMap searchPair,
        st.2 || (events.filterMap searchPair).any
          (fun p => decide (p.delay_h ≤ trigger))) := by
  intro events
  induction events with
  | nil => intro st; simp
  | cons ev rest ih =>
    intro st
    cases hs : searchPair ev with
    | none =>
      simp only [List.foldl_cons, hs, List.filterMap_cons, ih]
    | some pair =>
      simp only [List.foldl_cons, hs, List.filterMap_cons, ih]
      simp [List.append_assoc, Bool.or_assoc]

def c7Pair : S1Pair :=
  ⟨"G1", 35, 135, 0, 1, 10, 2, 20, "AFTER-ID", some 10, 3,
    none, none, none, none, 2, "cdse_nationwide_search"⟩

/-- C7 counterexample: a grid whose only matched pair has `delay_h`
exactly equal to the 2-hour trigger IS persisted (the code tests
`delay_h <= trigger_hours`), although no pair has delay strictly below
the trigger — "strictly below" is not the qualification test. -/
theorem c7_counterexample :
    process_grid_batch
        (fun _ : ℕ => some (c7Pair)) [0] 2 = [c7Pair] ∧
    ¬ c7Pair.delay_h < 2 := by
  constructor
  · rfl
  · decide

/-- C7 amended: a grid's batch is persisted exactly when at least one
matched pair has `delay_h` at or below (`<=`) the trigger threshold; when
the grid qualifies all of its matched pairs are returned for persistence,
including those above the threshold, and otherwise none are. -/
theorem c7_grid_qualification {ε : Type} (searchPair : ε → Option S1Pair)
    (events : List ε) (trigger : ℚ) :
    ((∃ p ∈ events.filterMap searchPair, p.delay_h ≤ trigger) →
      process_grid_batch searchPair events trigger =
        events.filterMap searchPair) ∧
    ((∀ p ∈ events.filterMap searchPair, ¬ p.delay_h ≤ trigger) →
      process_grid_batch searchPair events trigger = []) := by
  have hf := process_grid_batch_foldl searchPair trigger events ([], false)
  constructor
  · intro hex
    have hany : (events.filterMap searchPair).any
        (fun p => decide (p.delay_h ≤ trigger)) = true := by
      rw [List.any_eq_true]
      obtain ⟨p, hp, hle⟩ := hex
      exact ⟨p, hp, by simpa using hle⟩
    simp only [process_grid_batch]
    rw [hf]
    simp [hany]
  · intro hall
    have hany : (events.filterMap searchPair).any
        (fun p => decide (p.delay_h ≤ trigger)) = false := by
      rw [List.any_eq_false]
      intro p hp
      simpa using hall p hp
    simp only [process_grid_batch]
    rw [hf]
    simp [hany]

theorem c7_grid_qualification_witness :
    process_grid_batch (fun _ : ℕ => some c7Pair) [0] 2 = [c7Pair] :=
  (c7_grid_qualification (fun _ : ℕ => some c7Pair) [0] 2).1
    ⟨c7Pair, by decide, by decide⟩

/-! ## `download_product` (s1_cdse_client.py, lines 285-365)

The environment bundles what the call observes: the token, the OData
resolution result, the prior state of the destination file, the streaming
GET and its chunk sequence, and the time-varying cancellation flag (the
progress callback returns False when cancellation was requested, checked
once per non-empty chunk).  The result records the Python return value
(saved path or None), the final state of the destination file, the bytes
pulled over the stream, whether the 100% skip report was issued, and which
log line the call ends on — the log is where cancellation and failure are
distinguished. -/

def normalize_product_name (name : String) : String :=
  let n1 := if name.endsWith "_COG" then name.dropRight 4 else name
  if n1.endsWith ".SAFE" then n1.dropRight 5 else n1

def savePathOf (product_identifier : String) : String :=
  normalize_product_name product_identifier ++ ".zip"

inductive StreamChunk where
  | data (size : ℕ)
  | ioError
deriving DecidableEq, Repr

structure DlEnv where
  token : String
  odata_id : Option String
  existing_nonzero : Bool
  http_ok : Bool
  content_length : ℕ
  stream : List StreamChunk
  cancel_at : ℕ → Bool

inductive DlLog where
  | emptyId
  | noCreds
  | noUuid
  | skippedExisting
  | cancelledLog
  | failedLog
  | completedLog
deriving DecidableEq, Repr

structure DlResult where
  ret : Option String
  file_nonzero : Bool
  transferred : ℕ
  progress_complete : Bool
  log : DlLog
deriving DecidableEq, Repr

inductive DlTermination where
  | completed
  | cancelled
  | failed
deriving DecidableEq, Repr

/-- The chunk loop: empty chunks are skipped (`if chunk:`); after writing a
chunk the progress callback runs when `content_length > 0`, and a False
return raises `InterruptedError`. -/
def dlStreamLoop (cancel_at : ℕ → Bool) (total : ℕ) :
    List StreamChunk → ℕ → ℕ → DlTermination × ℕ
  | [], _, downloaded => (.completed, downloaded)
  | .ioError :: _, _, downloaded => (.failed, downloaded)
  | .data n :: rest, idx, downloaded =>
    if n = 0 then dlStreamLoop cancel_at total rest (idx + 1) downloaded
    else
      let d := downloaded + n
      if total > 0 && cancel_at idx then (.cancelled, d)
      else dlStreamLoop cancel_at total rest (idx + 1) d

def download_product (product_identifier : String) (env : DlEnv) : DlResult :=
  if product_identifier = "" then
    ⟨none, env.existing_nonzero, 0, false, .emptyId⟩
  else if env.token = "" then
    ⟨none, env.existing_nonzero, 0, false, .noCreds⟩
  else
    match env.odata_id with
    | none => ⟨none, env.existing_nonzero, 0, false, .noUuid⟩
    | some _ =>
      if env.existing_nonzero then
        ⟨some (savePathOf product_identifier), true, 0, true, .skippedExisting⟩
      else if env.http_ok = false then
        ⟨none, false, 0, false, .failedLog⟩
      else
        match dlStreamLoop env.cancel_at env.content_length env.stream 0 0 with
        | (.completed, d) =>
          ⟨some (savePathOf product_identifier), decide (0 < d), d, false,
            .completedLog⟩
        | (.cancelled, d) => ⟨none, false, d, false, .cancelledLog⟩
        | (.failed, d) => ⟨none, false, d, false, .failedLog⟩

def c8CancelEnv : DlEnv :=
  ⟨"tok", some "uuid-1", false, true, 100,
    [StreamChunk.data 50, StreamChunk.data 50], fun i => i == 1⟩

def c8FailEnv : DlEnv :=
  ⟨"tok", some "uuid-1", false, true, 100,
    [StreamChunk.data 50, StreamChunk.ioError], fun _ => false⟩

/-- C8 counterexample: a download cancelled at its second chunk and a
download whose stream fails at its second chunk both return None — the
identical value — so the caller cannot tell cancellation from failure
from the returned value; only the log line differs.  The partial file is
removed in both runs. -/
theorem c8_counterexample :
    (download_product "P1" c8CancelEnv).log = DlLog.cancelledLog ∧
    (download_product "P1" c8FailEnv).log = DlLog.failedLog ∧
    (download_product "P1" c8CancelEnv).ret = none ∧
    (download_product "P1" c8FailEnv).ret = none ∧
    (download_product "P1" c8CancelEnv).ret = (download_product "P1" c8FailEnv).ret ∧
    (download_product "P1" c8CancelEnv).file_nonzero = false ∧
    (download_product "P1" c8FailEnv).file_nonzero = false := by
  refine ⟨?_, ?_, ?_, ?_, ?_, ?_, ?_⟩ <;> decide

/-- C8 amended: whenever a streaming download ends in cancellation or in a
mid-stream failure the partial file is removed and the returned value is
None in both cases; the two outcomes are distinguished only in the logs,
not in the value returned to the caller. -/
theorem c8_interrupted_removed_but_ret_conflated (pid : String) (env : DlEnv)
    (u : String) (hid : env.odata_id = some u)
    (hpid : ¬ pid = "") (htok : ¬ env.token = "")
    (hex : env.existing_nonzero = false) (hok : env.http_ok = true) :
    ((download_product pid env).log = DlLog.cancelledLog ∨
      (download_product pid env).log = DlLog.failedLog) →
    (download_product pid env).ret = none ∧
    (download_product pid env).file_nonzero = false := by
  have hne : ¬ env.http_ok = false := by simp [hok]
  simp only [download_product, hid, if_neg hpid, if_neg htok, hex,
    Bool.false_eq_true, if_false, if_neg hne]
  rcases hloop : dlStreamLoop env.cancel_at env.content_length env.stream 0 0 with
    ⟨term, d⟩
  cases term <;> simp

def c8WitnessEnv : DlEnv :=
  ⟨"tok", some "uuid-2", false, true, 10, [StreamChunk.data 4], fun i => i == 0⟩

theorem c8_interrupted_removed_witness :
    (download_product "P2" c8WitnessEnv).ret = none ∧
    (download_product "P2" c8WitnessEnv).file_nonzero = false :=
  c8_interrupted_removed_but_ret_conflated "P2" c8WitnessEnv "uuid-2" rfl
    (by decide) (by decide) rfl rfl (Or.inl (by decide))

/-- C9: a download invoked while the destination file already exists with
nonzero size returns the saved path without pulling any bytes, reports
progress as already complete, leaves the file as it was — and a second
invocation on the resulting state behaves identically, so the operation is
idempotent with respect to an existing nonzero-size target. -/
theorem c9_download_skip_idempotent (pid : String) (env : DlEnv) (u : String)
    (hpid : ¬ pid = "") (htok : ¬ env.token = "") (hid : env.odata_id = some u)
    (hex : env.existing_nonzero = true) :
    download_product pid env =
      ⟨some (savePathOf pid), true, 0, true, DlLog.skippedExisting⟩ ∧
    (download_product pid env).transferred = 0 ∧
    (download_product pid env).file_nonzero = env.existing_nonzero ∧
    download_product pid
        { env with existing_nonzero := (download_product pid env).file_nonzero } =
      download_product pid env := by
  have h1 : download_product pid env =
      ⟨some (savePathOf pid), true, 0, true, DlLog.skippedExisting⟩ := by
    simp only [download_product, hid, if_neg hpid, if_neg htok, hex, if_true]
  refine ⟨h1, by rw [h1], by rw [h1, hex], ?_⟩
  rw [h1]
  simp only [download_product, hid, if_neg hpid, if_neg htok, if_true]

def c9Env : DlEnv :=
  ⟨"tok", some "uuid-3", true, true, 100, [StreamChunk.data 50], fun _ => false⟩

theorem c9_download_skip_idempotent_witness :
    download_product "P3" c9Env =
      ⟨some (savePathOf "P3"), true, 0, true, DlLog.skippedExisting⟩ ∧
    (download_product "P3" c9Env).transferred = 0 ∧
    (download_product "P3" c9Env).file_nonzero = c9Env.existing_nonzero ∧
    download_product "P3"
        { c9Env with existing_nonzero := (download_product "P3" c9Env).file_nonzero } =
      download_product "P3" c9Env :=
  c9_download_skip_idempotent "P3" c9Env "uuid-3" (by decide) (by decide) rfl rfl

/-! ## Duplicate avoidance on persistence

`_bulk_save` (search_s1_nationwide.py, lines 272-296) checks
`(grid_id, event_start_ts_utc, source)` before each insert;
the pairing orchestrator `build_s1_pairs`
(build_s1_pairs_from_events_cdse.py, lines 451-466) checks the wider
tuple `(grid_id, event_start_ts_utc, event_end_ts_utc, threshold_mm_h,
after_scene_id, source="cdse")`.  The database is modelled as the list of
persisted rows; a pending `db.add` is visible to the next duplicate query
(SQLAlchemy autoflush). -/

def pairKey (p : S1Pair) : String × ℚ × String :=
  (p.grid_id, p.event_start_ts_utc, p.source)

def bulkSameKey (p q : S1Pair) : Bool :=
  q.grid_id == p.grid_id && q.event_start_ts_utc == p.event_start_ts_utc &&
    q.source == p.source

def bulk_save (db : List S1Pair) (data_list : List S1Pair) : List S1Pair :=
  data_list.foldl
    (fun db p => if db.any (bulkSameKey p) then db else db ++ [p]) db

def cdseDupMatch (p q : S1Pair) : Bool :=
  q.grid_id == p.grid_id && q.event_start_ts_utc == p.event_start_ts_utc &&
    q.event_end_ts_utc == p.event_end_ts_utc &&
    q.threshold_mm_h == p.threshold_mm_h &&
    q.after_scene_id == p.after_scene_id && q.source == "cdse"

/-- One insert of the build_s1_pairs loop: skip when the wide-tuple
duplicate check finds an existing row, add otherwise. -/
def cdseInsertStep (db : List S1Pair) (p : S1Pair) : List S1Pair :=
  if db.any (cdseDupMatch p) then db else db ++ [p]

theorem bulkSameKey_iff (p q : S1Pair) :
    bulkSameKey p q = true ↔ pairKey q = pairKey p := by
  simp [bulkSameKey, pairKey, Prod.ext_iff, and_assoc]

def c10Existing : S1Pair :=
  ⟨"G7", 35, 135, 0, 1, 10, 2, 20, "AFTER-A", some 10, 3,
    none, none, none, none, 2, "cdse"⟩

def c10New : S1Pair :=
  ⟨"G7", 35, 135, 0, 1, 10, 2, 20, "AFTER-B", some 10, 6,
    none, none, none, none, 5, "cdse"⟩

/-- C10 counterexample: the build_s1_pairs persistence step does NOT skip
on a mere `(grid_id, event_start_ts, source_tag)` match: an existing pair
with the same key but a different after scene id passes the duplicate
check, and the insert leaves two persisted pairs with the same uniqueness
key. -/
theorem c10_counterexample :
    pairKey c10Existing = pairKey c10New ∧
    c10Existing.after_scene_id ≠ c10New.after_scene_id ∧
    cdseInsertStep [c10Existing] c10New = [c10Existing, c10New] ∧
    ((cdseInsertStep [c10Existing] c10New).filter
      (fun q => bulkSameKey c10New q)).length = 2 := by
  refine ⟨?_, ?_, ?_, ?_⟩ <;> decide

/-- C10 amended: `_bulk_save` of the nationwide orchestrator checks
exactly the `(grid_id, event_start_ts, source)` key and skips on a match,
so once a pair with a given key is persisted no re-run adds another row
with that key; `build_s1_pairs` checks the wider tuple including
`after_scene_id`, so it skips (and avoids a same-key duplicate) only when
the re-run resolves the identical pair row — in particular replaying the
very same row is skipped. -/
theorem c10_dedup (db : List S1Pair) (data_list : List S1Pair)
    (k : String × ℚ × String) (hdb : ∃ q ∈ db, pairKey q = k) :
    ((bulk_save db data_list).filter (fun q => decide (pairKey q = k)) =
      db.filter (fun q => decide (pairKey q = k))) ∧
    (∀ p ∈ db, p.source = "cdse" → cdseInsertStep db p = db) := by
  constructor
  · induction data_list generalizing db with
    | nil => simp [bulk_save]
    | cons p rest ih =>
      show List.filter _ (List.foldl _ (if db.any (bulkSameKey p) then db else db ++ [p]) rest) = _
      by_cases hany : db.any (bulkSameKey p) = true
      · rw [if_pos hany]
        exact ih db hdb
      · rw [if_neg hany]
        have hpk : ¬ pairKey p = k := by
          intro hpk
          obtain ⟨q, hq, hqk⟩ := hdb
          have : bulkSameKey p q = true :=
            (bulkSameKey_iff p q).mpr (hqk.trans hpk.symm)
          exact hany (List.any_eq_true.mpr ⟨q, hq, this⟩)
        have hdb2 : ∃ q ∈ db ++ [p], pairKey q = k := by
          obtain ⟨q, hq, hqk⟩ := hdb
          exact ⟨q, by simp [hq], hqk⟩
        show List.filter (fun q => decide (pairKey q = k)) (bulk_save (db ++ [p]) rest) =
          List.filter (fun q => decide (pairKey q = k)) db
        rw [ih (db ++ [p]) hdb2, List.filter_append]
        simp [hpk]
  · intro p hp hsrc
    have hself : cdseDupMatch p p = true := by
      simp [cdseDupMatch, hsrc]
    rw [cdseInsertStep, if_pos (List.any_eq_true.mpr ⟨p, hp, hself⟩)]

theorem c10_dedup_witness :
    ((bulk_save [c10Existing] [c10New]).filter
        (fun q => decide (pairKey q = pairKey c10Existing)) =
      [c10Existing].filter (fun q => decide (pairKey q = pairKey c10Existing))) ∧
    (∀ p ∈ [c10Existing], p.source = "cdse" →
      cdseInsertStep [c10Existing] p = [c10Existing]) :=
  c10_dedup [c10Existing] [c10New] (pairKey c10Existing)
    ⟨c10Existing, by decide, rfl⟩

end RainsarHub
